import Mathlib

/-!
Verification of the `inx-notarizer` notarization engine
(`components/notarizer/notarizer.go`) against its design specification.

The Go code is shallowly embedded:
* bytes are `Nat` values, byte strings are `List Nat`;
* Go `uint64` arithmetic is `Nat` with an explicit `% U64MOD` at every
  operation whose wrap-around is reachable (the running totals and the
  remainder subtraction in `prepTxPayload`);
* fallible Go functions returning `(T, error)` become `Option`/`Except`
  or carry a comment when their error branch is unreachable in the
  embedded fragment;
* the iota.go v3 library calls that the plugin makes (`RentStructure.MinRent`,
  `OutputIDFromHex`, `HexOutputIDs.OutputIDs`, bech32 address encoding,
  `builder.TransactionBuilder`) are embedded from that library's v3
  semantics, since the repository links against them.
-/

namespace Notarizer

/-- `2 ^ 64`, the modulus of Go `uint64` arithmetic. -/
def U64MOD : Nat := 18446744073709551616

/-- iota.go v3 `Ed25519Address`: a 32-byte public-key hash. -/
structure Ed25519Address where
  pubKeyHash : List Nat
deriving DecidableEq, Repr

/-- iota.go v3 unlock conditions admissible on a `BasicOutput`. The plugin
itself only ever constructs `addressUnlock`; the other kinds can occur on
fetched outputs. -/
inductive UnlockCondition where
  | addressUnlock (addr : Ed25519Address)
  | storageDepositReturn (returnAddr : Ed25519Address) (amount : Nat)
  | timelock (unixTime : Nat)
  | expiration (returnAddr : Ed25519Address) (unixTime : Nat)
deriving DecidableEq, Repr

/-- iota.go v3 features admissible on a `BasicOutput`. `metadata` carries the
raw metadata bytes (`MetadataFeature.Data`). -/
inductive Feature where
  | sender (addr : Ed25519Address)
  | metadata (data : List Nat)
  | tag (data : List Nat)
deriving DecidableEq, Repr

/-- iota.go v3 `NativeToken`: 38-byte token id plus a uint256 amount. -/
structure NativeToken where
  tokenID : List Nat
  amount : Nat
deriving DecidableEq, Repr

/-- iota.go v3 `iotago.BasicOutput` (the struct pointed to by
`*iotago.BasicOutput`). -/
structure BasicOutputData where
  amount : Nat
  nativeTokens : List NativeToken
  conditions : List UnlockCondition
  features : List Feature
deriving DecidableEq, Repr

/-- iota.go v3 `iotago.Output`: the runtime interface value. Only the basic
kind has structure the plugin inspects; for the other kinds only the deposit
is retained. -/
inductive Output where
  | basic (data : BasicOutputData)
  | aliasOutput (amount : Nat)
  | foundry (amount : Nat)
  | nft (amount : Nat)
deriving DecidableEq, Repr

/-- Go type assertion `output.(*iotago.BasicOutput)` succeeding. -/
def Output.isBasic : Output → Bool
  | .basic _ => true
  | _ => false

/-- `notarizer.go` `UTXOOutput`: an output id (34 opaque bytes) paired with
the fetched output. -/
structure UTXOOutput where
  outputID : List Nat
  output : Output
deriving DecidableEq, Repr

/-- `notarizer.go` `BasicOutput`: an output id paired with a basic output. -/
structure BasicOutput where
  outputID : List Nat
  output : BasicOutputData
deriving DecidableEq, Repr

/-- Go `basicOutput.FeatureSet().MetadataFeature()`: the metadata feature of
the feature list, if any (feature lists of ledger-valid outputs hold at most
one feature per kind). -/
def metadataFeature? : List Feature → Option (List Nat)
  | [] => none
  | .metadata d :: _ => some d
  | _ :: rest => metadataFeature? rest

/-- `notarizer.go` `filterOutputs` (lines 284-296): keeps exactly the outputs
whose runtime type is `*iotago.BasicOutput` and whose feature set has no
metadata feature. The Go function's `error` result is always `nil`. -/
def filterOutputs : List UTXOOutput → List BasicOutput
  | [] => []
  | u :: rest =>
    match u.output with
    | .basic b =>
      if metadataFeature? b.features = none then
        ⟨u.outputID, b⟩ :: filterOutputs rest
      else
        filterOutputs rest
    | _ => filterOutputs rest

/-- Spec-side restatement of the Output Filter contract (spec §4.2): the
subsequence of basic, metadata-free outputs, each paired with its identifier.
Deliberately written from the spec's words, to be compared with
`filterOutputs`. -/
def specEligibleFilter (unspentOutputs : List UTXOOutput) : List BasicOutput :=
  unspentOutputs.filterMap fun u =>
    match u.output with
    | .basic b => if metadataFeature? b.features = none then some ⟨u.outputID, b⟩ else none
    | _ => none

/-- iota.go v3 `RentStructure`. In Go `VByteCost` is a `uint32` and the two
factors are single bytes. -/
structure RentStructure where
  vByteCost : Nat
  vbFactorData : Nat
  vbFactorKey : Nat
deriving DecidableEq, Repr

/-- iota.go v3 `ProtocolParameters` (the fields the plugin reads). -/
structure ProtocolParameters where
  version : Nat
  networkName : String
  bech32HRP : String
  rentStructure : RentStructure
  tokenSupply : Nat
deriving DecidableEq, Repr

/-- iota.go v3 `UnlockCondition.VBytes`: data factor times the serialized
size (type byte plus payload; an Ed25519 address serializes to 33 bytes). -/
def UnlockCondition.vbytes (r : RentStructure) : UnlockCondition → Nat
  | .addressUnlock _ => r.vbFactorData * 1 + r.vbFactorData * 33
  | .storageDepositReturn _ _ => r.vbFactorData * 1 + r.vbFactorData * 33 + r.vbFactorData * 8
  | .timelock _ => r.vbFactorData * 1 + r.vbFactorData * 4
  | .expiration _ _ => r.vbFactorData * 1 + r.vbFactorData * 33 + r.vbFactorData * 4

/-- iota.go v3 `Feature.VBytes`; a metadata feature serializes to type byte,
uint16 length, then the data bytes. -/
def Feature.vbytes (r : RentStructure) : Feature → Nat
  | .sender _ => r.vbFactorData * 1 + r.vbFactorData * 33
  | .metadata d => r.vbFactorData * (1 + 2 + d.length)
  | .tag t => r.vbFactorData * (1 + 1 + t.length)

/-- iota.go v3 `NativeToken.VBytes`: 38-byte id plus uint256 amount. -/
def NativeToken.vbytes (r : RentStructure) (_t : NativeToken) : Nat :=
  r.vbFactorData * (38 + 32)

/-- iota.go v3 `NativeTokens.VBytes`: one count byte plus the members. -/
def nativeTokensVBytes (r : RentStructure) (ts : List NativeToken) : Nat :=
  r.vbFactorData * 1 + (ts.map (NativeToken.vbytes r)).sum

/-- iota.go v3 `UnlockConditions.VBytes`: one count byte plus the members. -/
def conditionsVBytes (r : RentStructure) (cs : List UnlockCondition) : Nat :=
  r.vbFactorData * 1 + (cs.map (UnlockCondition.vbytes r)).sum

/-- iota.go v3 `Features.VBytes`: one count byte plus the members. -/
def featuresVBytes (r : RentStructure) (fs : List Feature) : Nat :=
  r.vbFactorData * 1 + (fs.map (Feature.vbytes r)).sum

/-- iota.go v3 `outputOffsetVByteCost`: key factor times the 34-byte output
id plus data factor times block id (32) and two uint32 milestone fields. -/
def outputOffsetVBytes (r : RentStructure) : Nat :=
  r.vbFactorKey * 34 + r.vbFactorData * (32 + 4 + 4)

/-- iota.go v3 `BasicOutput.VBytes`: offset, type byte plus uint64 amount,
native tokens, conditions, features. Independent of `amount`'s value. -/
def BasicOutputData.vbytes (r : RentStructure) (b : BasicOutputData) : Nat :=
  outputOffsetVBytes r + r.vbFactorData * (1 + 8) +
    nativeTokensVBytes r b.nativeTokens +
    conditionsVBytes r b.conditions +
    featuresVBytes r b.features

/-- iota.go v3 `RentStructure.MinRent`: `VByteCost * VBytes`. Plain `Nat`
multiplication: in Go the factors are a `uint32` and bytes, so the `uint64`
product cannot wrap for serializable outputs. -/
def RentStructure.minRent (r : RentStructure) (b : BasicOutputData) : Nat :=
  r.vByteCost * b.vbytes r

/-- The notarization output as `prepTxPayload` constructs it before the
amount is set (lines 315-322): one address unlock condition and one metadata
feature holding the hash bytes. -/
def notarizationDraft (address : Ed25519Address) (hash : List Nat) : BasicOutputData :=
  { amount := 0
  , nativeTokens := []
  , conditions := [.addressUnlock address]
  , features := [.metadata hash] }

/-- The transaction payload built by `builder.TransactionBuilder.Build`
(iota.go v3): essence network id (kept as the network name), consumed input
references, and the output list. Unlocks are produced by the black-box
signer and carry no information the claims mention, so they are not
modelled. -/
structure Transaction where
  networkName : String
  inputs : List (List Nat)
  outputs : List Output
deriving DecidableEq, Repr

/-- The running `totalDeposit` accumulation of `prepTxPayload` (lines
304-312): a Go `uint64` sum of the inputs' deposits. -/
def depositSumW : List BasicOutput → Nat
  | outputs => outputs.foldl (fun acc u => (acc + u.output.amount) % U64MOD) 0

/-- Exact (unbounded) sum of the deposits of a list of filtered inputs. -/
def inputDepositSum (outputs : List BasicOutput) : Nat :=
  (outputs.map fun u => u.output.amount).sum

/-- Go `uint64` subtraction `a - b`: wraps around modulo `2 ^ 64`. -/
def u64sub (a b : Nat) : Nat :=
  (a + U64MOD - b % U64MOD) % U64MOD

/-- iota.go v3 `OutputsSyntacticalDepositAmount`, part of the validating
serialize at the end of `TransactionBuilder.Build`: walking the outputs
with a running sum, each output's deposit must be non-zero, at most the
token supply, keep the running sum within the token supply, and cover the
output's own minimum storage deposit (`RentStructure.CoversMinDeposit`).
`prepTxPayload` only ever submits basic outputs with plain address
conditions, so the storage-deposit-return refinements of the Go check are
not reachable here. -/
def outputsDepositValidation (p : ProtocolParameters) :
    Nat → List BasicOutputData → Option String
  | _, [] => none
  | sum, b :: rest =>
    if b.amount = 0 then some "deposit amount must be greater than zero"
    else if p.tokenSupply < b.amount then some "output deposit exceeds total supply"
    else if p.tokenSupply < sum + b.amount then some "accumulated output balance exceeds total supply"
    else if b.amount < p.rentStructure.minRent b then some "output deposit does not cover min storage deposit"
    else outputsDepositValidation p (sum + b.amount) rest

/-- iota.go v3 `builder.TransactionBuilder.Build`: after assembling and
signing the essence it serializes the payload with
`DeSeriModePerformValidation` and the protocol parameters, which enforces
the syntactic rules — 1 to 128 distinct inputs, 1 to 128 outputs, and the
per-output deposit checks of `outputsDepositValidation`. Signing by the
black-box signer cannot fail here (the address and signer are supplied),
so validation is the builder's only reachable error path. -/
def buildTransaction (p : ProtocolParameters) (inputIDs : List (List Nat))
    (outputs : List BasicOutputData) : Except String Transaction :=
  if inputIDs.length < 1 then .error "min inputs count not reached"
  else if 128 < inputIDs.length then .error "max inputs count exceeded"
  else if ¬ inputIDs.Nodup then .error "inputs must each reference a unique UTXO"
  else if outputs.length < 1 then .error "min outputs count not reached"
  else if 128 < outputs.length then .error "max outputs count exceeded"
  else
    match outputsDepositValidation p 0 outputs with
    | some e => .error e
    | none =>
      .ok { networkName := p.networkName
          , inputs := inputIDs
          , outputs := outputs.map Output.basic }

/-- The outputs `prepTxPayload` adds via `txBuilder.AddOutput` (lines
314-335): the notarization output carrying the hash metadata and the
protocol minimum deposit, then a remainder output whenever the `uint64`
difference `totalDeposit - notarizationOutputCost` is non-zero — including
when it wraps around because the inputs are insufficient. -/
def assembledOutputs (protoParas : ProtocolParameters) (unspentOutputs : List BasicOutput)
    (address : Ed25519Address) (hash : List Nat) : List BasicOutputData :=
  let totalDeposit := depositSumW unspentOutputs
  let notarizationOutputCost := protoParas.rentStructure.minRent (notarizationDraft address hash)
  let notarizationOutput : BasicOutputData :=
    { notarizationDraft address hash with amount := notarizationOutputCost }
  let remainder := u64sub totalDeposit notarizationOutputCost
  notarizationOutput ::
    (if remainder > 0 then
      [{ amount := remainder
       , nativeTokens := []
       , conditions := [.addressUnlock address]
       , features := [] }]
    else [])

/-- `notarizer.go` `prepTxPayload` (lines 299-344). Adds every filtered
input, sums their deposits in `uint64`, builds the notarization and
optional remainder outputs of `assembledOutputs`, and runs
`txBuilder.Build` — the validating serialize of `buildTransaction` — whose
error is wrapped as in the Go code. -/
def prepTxPayload (protoParas : ProtocolParameters) (unspentOutputs : List BasicOutput)
    (address : Ed25519Address) (hash : List Nat) : Except String Transaction :=
  match buildTransaction protoParas (unspentOutputs.map BasicOutput.outputID)
      (assembledOutputs protoParas unspentOutputs address hash) with
  | .error e => .error ("failed to build transaction payload: " ++ e)
  | .ok txPayload => .ok txPayload

/-- Whether transaction assembly returned an error instead of a payload. -/
def assemblyFailed : Except String Transaction → Bool
  | .error _ => true
  | .ok _ => false

deriving instance DecidableEq for Except

/-- An HTTP outcome of the verification handler: a JSON 200 response with a
match verdict, or an `echo.NewHTTPError` with a status code and message. -/
inductive VerifyResult where
  | json (status : Nat) (matched : Bool)
  | httpError (status : Nat) (message : String)
deriving DecidableEq, Repr

/-- Whether a handler outcome is an `echo.NewHTTPError`. -/
def VerifyResult.isHttpError : VerifyResult → Bool
  | .httpError _ _ => true
  | _ => false

/-- Value of one hexadecimal digit (Go `encoding/hex` accepts both cases). -/
def hexDigitVal? (c : Char) : Option Nat :=
  if '0' ≤ c ∧ c ≤ '9' then some (c.toNat - 48)
  else if 'a' ≤ c ∧ c ≤ 'f' then some (c.toNat - 87)
  else if 'A' ≤ c ∧ c ≤ 'F' then some (c.toNat - 55)
  else none

/-- Go `hex.DecodeString` digit loop: two digits per byte, failing on an odd
count or a non-hex digit. -/
def hexPairsToBytes? : List Char → Option (List Nat)
  | [] => some []
  | [_] => none
  | c1 :: c2 :: rest =>
    match hexDigitVal? c1, hexDigitVal? c2, hexPairsToBytes? rest with
    | some hi, some lo, some bs => some ((16 * hi + lo) :: bs)
    | _, _, _ => none

/-- iota.go v3 `DecodeHex`: requires the `0x` front marker, then decodes the
hex digits; fails on a missing marker, an odd digit count, or a bad digit. -/
def decodeHex (s : String) : Option (List Nat) :=
  match s.data with
  | '0' :: 'x' :: rest => hexPairsToBytes? rest
  | _ => none

/-- Go `copy(outputID[:], bytes)` into a zeroed 34-byte array: truncate or
zero-pad to exactly 34 bytes. -/
def toOutputIDBytes (bytes : List Nat) : List Nat :=
  bytes.take 34 ++ List.replicate (34 - bytes.length) 0

/-- iota.go v3 `OutputIDFromHex`: hex-decode and copy into a 34-byte output
id (the v3 function performs no length check of its own). -/
def outputIDFromHex (s : String) : Option (List Nat) :=
  match decodeHex s with
  | none => none
  | some bytes => some (toOutputIDBytes bytes)

/-- The feature scan of `verifyNotarization` (lines 170-186): succeed at the
first metadata feature whose raw bytes equal the claimed hash's bytes (Go
compares `string(metadataFeature.Data) == requestBody.Hash`, a byte-for-byte
comparison of the UTF-8 encodings); a non-matching metadata feature does not
stop the scan. -/
def findMatchingMetadata : List Feature → List Nat → Bool
  | [], _ => false
  | .metadata d :: rest, hash => if d = hash then true else findMatchingMetadata rest hash
  | _ :: rest, hash => findMatchingMetadata rest hash

/-- `notarizer.go` `verifyNotarization` (lines 119-190), embedded from the
point where the JSON request body has been decoded into its `hash` and
`outputID` strings (the spec scopes request unmarshaling out, §1). `hash`
is the UTF-8 byte list of the claimed hash string; `outputByID` is the
node's `OutputByID` lookup, `none` covering both not-found and node errors.
The `MarshalJSON` calls of the Go code are pure logging of in-memory values
and cannot fail on them. -/
def verifyNotarization (outputByID : List Nat → Option Output)
    (hash : List Nat) (outputIDHex : String) : VerifyResult :=
  match outputIDFromHex outputIDHex with
  | none => .httpError 500 "Error converting outputID string"
  | some outputID =>
    match outputByID outputID with
    | none => .json 200 false
    | some output =>
      match output with
      | .basic basicOutput => .json 200 (findMatchingMetadata basicOutput.features hash)
      | _ => .httpError 500 "Unexpected output type"

/-- One page of the indexer result stream of `fetchOutputsByAddress`:
either a successfully drained page (`indexerResultSet.Outputs()` returned
the outputs, paired with the hex output ids of `Response.Items`), or a
failing `Outputs()` call. -/
inductive IndexerPage where
  | items (entries : List (String × Output))
  | outputsError (message : String)
deriving DecidableEq, Repr

/-- Outcome of a fetch: the collected outputs, an explicit error, or a Go
runtime panic. -/
inductive FetchResult where
  | ok (outputs : List UTXOOutput)
  | error (message : String)
  | runtimePanic (message : String)
deriving DecidableEq, Repr

/-- The per-item body of the page loop (lines 262-273): parse the item's hex
output id via `HexOutputIDs.OutputIDs`. iota.go v3 returns a nil slice on a
decode error, and the Go code only logs that error and then evaluates
`ingoingOutputIds[0]`, which panics on the nil slice — modelled as `none`. -/
def resolvePageItems : List (String × Output) → Option (List UTXOOutput)
  | [] => some []
  | (hexID, output) :: rest =>
    match decodeHex hexID, resolvePageItems rest with
    | some bytes, some more => some (⟨toOutputIDBytes bytes, output⟩ :: more)
    | _, _ => none

/-- The `indexerResultSet.Next()` loop of `fetchOutputsByAddress` (lines
255-278): drain pages in order, abort on a failing `Outputs()` call, panic
on an item id that does not parse, and check `indexerResultSet.Error` only
after the stream is exhausted. -/
def drainPages (streamEndError : Option String) (acc : List UTXOOutput) :
    List IndexerPage → FetchResult
  | [] =>
    match streamEndError with
    | some e => .error ("indexer result set error: " ++ e)
    | none => .ok acc
  | .items entries :: rest =>
    match resolvePageItems entries with
    | none => .runtimePanic "runtime error: index out of range"
    | some resolved => drainPages streamEndError (acc ++ resolved) rest
  | .outputsError e :: _ => .error ("failed to get outputs from indexer result set: " ++ e)

/-- `notarizer.go` `fetchOutputsByAddress` (lines 233-281). `indexerClient`
is the outcome of `deps.NodeBridge.Indexer`, `queryResult` the outcome of
`indexer.Outputs`: the stream's pages plus the value `indexerResultSet.Error`
holds once `Next()` stops returning pages. -/
def fetchOutputsByAddress (indexerClient : Except String Unit)
    (queryResult : Except String (List IndexerPage × Option String)) : FetchResult :=
  match indexerClient with
  | .error e => .error ("failed to get indexer client: " ++ e)
  | .ok _ =>
    match queryResult with
    | .error e => .error ("failed to fetch outputs from indexer: " ++ e)
    | .ok (pages, streamEndError) => drainPages streamEndError [] pages

/-- The bech32 character set (BIP-173), as used by iota.go's `bech32.Encode`. -/
def bech32Charset : List Char :=
  ['q','p','z','r','y','9','x','8','g','f','2','t','v','d','w','0',
   's','3','j','n','5','4','k','h','c','e','6','m','u','a','7','l']

/-- One step of the bech32 checksum polymod. -/
def bech32Step (chk v : Nat) : Nat :=
  let b := chk >>> 25
  let c := ((chk % 33554432) <<< 5) ^^^ v
  let c := if (b >>> 0) % 2 = 1 then c ^^^ 996825010 else c
  let c := if (b >>> 1) % 2 = 1 then c ^^^ 642813549 else c
  let c := if (b >>> 2) % 2 = 1 then c ^^^ 513874426 else c
  let c := if (b >>> 3) % 2 = 1 then c ^^^ 1027748829 else c
  let c := if (b >>> 4) % 2 = 1 then c ^^^ 705979059 else c
  c

/-- The bech32 checksum polymod over a value sequence. -/
def bech32Polymod (values : List Nat) : Nat :=
  values.foldl bech32Step 1

/-- bech32 human-readable-part expansion. -/
def bech32HrpExpand (hrp : String) : List Nat :=
  (hrp.data.map fun c => c.toNat >>> 5) ++ [0] ++ (hrp.data.map fun c => c.toNat % 32)

/-- The six bech32 checksum characters (as 5-bit values). -/
def bech32CreateChecksum (hrp : String) (data : List Nat) : List Nat :=
  let pm := bech32Polymod (bech32HrpExpand hrp ++ data ++ [0, 0, 0, 0, 0, 0]) ^^^ 1
  (List.range 6).map fun i => (pm >>> (5 * (5 - i))) % 32

/-- One byte of the 8-bit to 5-bit regrouping: state is (bit accumulator,
pending bit count, emitted groups); the pending count stays below 5. -/
def bech32ConvertStep (st : Nat × Nat × List Nat) (b : Nat) : Nat × Nat × List Nat :=
  let acc := (st.1 <<< 8) ||| (b % 256)
  let bits := st.2.1 + 8
  if bits ≥ 10 then
    (acc, bits - 10, st.2.2 ++ [(acc >>> (bits - 5)) % 32, (acc >>> (bits - 10)) % 32])
  else
    (acc, bits - 5, st.2.2 ++ [(acc >>> (bits - 5)) % 32])

/-- bech32 `convertbits(data, 8, 5, pad=true)`. -/
def bech32ConvertBits (data : List Nat) : List Nat :=
  let st := data.foldl bech32ConvertStep (0, 0, [])
  if st.2.1 > 0 then st.2.2 ++ [(st.1 <<< (5 - st.2.1)) % 32] else st.2.2

/-- iota.go `bech32.Encode hrp data`: the human-readable part, the separator
`1`, then the regrouped data and checksum in the bech32 character set. The
address string is kept as its character list. -/
def bech32Encode (hrp : String) (data : List Nat) : List Char :=
  let d5 := bech32ConvertBits data
  hrp.data ++ '1' :: (d5 ++ bech32CreateChecksum hrp d5).map fun v => bech32Charset.getD v '?'

/-- `notarizer.go` `WalletObject` (lines 47-51). The `AddressSigner`
capability is a black box no claim mentions and is not modelled. -/
structure WalletObject where
  bech32Address : List Char
  ed25519Address : Ed25519Address
deriving DecidableEq, Repr

/-- `notarizer.go` `prepWallet` (lines 208-230). The HD-wallet collaborator
(`pkg/hdwallet`, not part of the sources) is passed as the black-box
`deriveAddress` parameter, modelled from the spec: `deriveWallet(seedPhrase,
passphrase, accountIndex) -> (address, signer)`, failing on a malformed seed
phrase (spec §6); per that interface it does not consume the protocol
parameters. The code then renders the returned Ed25519 address (serialized
as its type byte 0 followed by the 32 hash bytes) with
`address.Bech32("tst")` — a hard-coded human-readable part, ignoring
`protoParas.Bech32HRP`. -/
def prepWallet (deriveAddress : List String → Option Ed25519Address)
    (_protoParas : ProtocolParameters) (mnemonic : List String) : Option WalletObject :=
  match deriveAddress mnemonic with
  | none => none
  | some address =>
    some { bech32Address := bech32Encode "tst" (0 :: address.pubKeyHash)
         , ed25519Address := address }

/-! Concrete fixtures, taken from the repository's unit tests
(`mockProtocolParameters`, `mockUnfilteredOutputs`) and the spec's
end-to-end scenarios. -/

/-- The test suite's rent structure: `VByteCost 500, VBFactorData 1,
VBFactorKey 10`. -/
def mockRent : RentStructure := ⟨500, 1, 10⟩

/-- The test suite's protocol parameters. -/
def mockProtoParas : ProtocolParameters :=
  ⟨2, "private_tangle1", "tst", mockRent, 2779530283277761⟩

/-- An all-zero Ed25519 address (the tests' `&iotago.Ed25519Address{}`). -/
def zeroAddr : Ed25519Address := ⟨List.replicate 32 0⟩

/-- UTF-8 bytes of the hash string `"abcd1234"` used by the tests. -/
def abcdHash : List Nat := [97, 98, 99, 100, 49, 50, 51, 52]

/-- The three unspent outputs of end-to-end scenario B (spec §8), as built
by the tests' `mockUnfilteredOutputs`: a basic output of amount 2000 without
metadata, a basic output of amount 1000 with metadata `"metadata1"`, and an
alias (non-basic) output of amount 1000. -/
def scenarioBOutputs : List UTXOOutput :=
  [ ⟨4 :: 5 :: 6 :: List.replicate 31 0,
      .basic ⟨2000, [], [.addressUnlock zeroAddr], []⟩⟩
  , ⟨1 :: 2 :: 3 :: List.replicate 31 0,
      .basic ⟨1000, [], [.addressUnlock zeroAddr],
        [.metadata [109, 101, 116, 97, 100, 97, 116, 97, 49]]⟩⟩
  , ⟨1 :: 2 :: 3 :: List.replicate 31 0, .aliasOutput 1000⟩ ]

/-- The single output scenario B expects the filter to return. -/
def scenarioBFirst : BasicOutput :=
  ⟨4 :: 5 :: 6 :: List.replicate 31 0, ⟨2000, [], [.addressUnlock zeroAddr], []⟩⟩

/-! Helper lemmas. -/

/-- `filterOutputs` agrees with the spec-side filter on every input list. -/
lemma filterOutputs_eq_spec (us : List UTXOOutput) :
    filterOutputs us = specEligibleFilter us := by
  induction us with
  | nil => rfl
  | cons u rest ih =>
    cases hu : u.output with
    | basic b =>
      by_cases hm : metadataFeature? b.features = none <;>
        simp [filterOutputs, specEligibleFilter, hu, hm, ih,
          specEligibleFilter, List.filterMap_cons]
    | aliasOutput a => simp [filterOutputs, specEligibleFilter, hu, ih, List.filterMap_cons]
    | foundry a => simp [filterOutputs, specEligibleFilter, hu, ih, List.filterMap_cons]
    | nft a => simp [filterOutputs, specEligibleFilter, hu, ih, List.filterMap_cons]

/-- Every output admitted by `filterOutputs` is metadata-free. -/
lemma filterOutputs_no_metadata (us : List UTXOOutput) :
    ∀ b ∈ filterOutputs us, metadataFeature? b.output.features = none := by
  intro b hb
  rw [filterOutputs_eq_spec] at hb
  rcases List.mem_filterMap.mp hb with ⟨u, _, hf⟩
  cases huo : u.output with
  | basic bd =>
    rw [huo] at hf
    by_cases hm : metadataFeature? bd.features = none
    · simp only [hm, if_true, eq_self_iff_true, if_pos, Option.some_inj] at hf
      subst hf
      exact hm
    · simp [hm] at hf
  | aliasOutput a => rw [huo] at hf; simp at hf
  | foundry a => rw [huo] at hf; simp at hf
  | nft a => rw [huo] at hf; simp at hf

/-- Claim C3: for every list of unspent outputs, `filterOutputs` returns
exactly the basic, metadata-free outputs — it agrees with the spec-side
allow-list filter, admits no output carrying a metadata feature, silently
drops non-basic outputs, and on the three-output scenario-B example returns
exactly the first output. -/
theorem C3_filterOutputs_spec : ∀ unspentOutputs : List UTXOOutput,
    filterOutputs unspentOutputs = specEligibleFilter unspentOutputs
    ∧ (∀ b ∈ filterOutputs unspentOutputs, metadataFeature? b.output.features = none)
    ∧ filterOutputs scenarioBOutputs = [scenarioBFirst] := by
  intro us
  refine ⟨filterOutputs_eq_spec us, filterOutputs_no_metadata us, ?_⟩
  decide

/-- Witness for C3, instantiated at the scenario-B output list. -/
theorem C3_filterOutputs_spec_witness :
    filterOutputs scenarioBOutputs = specEligibleFilter scenarioBOutputs
    ∧ (∀ b ∈ filterOutputs scenarioBOutputs, metadataFeature? b.output.features = none)
    ∧ filterOutputs scenarioBOutputs = [scenarioBFirst] :=
  C3_filterOutputs_spec scenarioBOutputs

lemma inputDepositSum_cons (x : BasicOutput) (xs : List BasicOutput) :
    inputDepositSum (x :: xs) = x.output.amount + inputDepositSum xs := by
  simp [inputDepositSum]

/-- The wrapping accumulation never exceeds the exact sum. -/
lemma foldl_addmod_le (l : List BasicOutput) (acc : Nat) :
    l.foldl (fun a u => (a + u.output.amount) % U64MOD) acc ≤ acc + inputDepositSum l := by
  induction l generalizing acc with
  | nil => simp [inputDepositSum]
  | cons x xs ih =>
    rw [List.foldl_cons, inputDepositSum_cons]
    have h1 := ih ((acc + x.output.amount) % U64MOD)
    have h2 := Nat.mod_le (acc + x.output.amount) U64MOD
    omega

lemma depositSumW_le (l : List BasicOutput) : depositSumW l ≤ inputDepositSum l := by
  simpa [depositSumW] using foldl_addmod_le l 0

/-- The wrapping accumulation stays below `2 ^ 64`. -/
lemma foldl_addmod_lt (l : List BasicOutput) (acc : Nat) (hacc : acc < U64MOD) :
    l.foldl (fun a u => (a + u.output.amount) % U64MOD) acc < U64MOD := by
  induction l generalizing acc with
  | nil => simpa using hacc
  | cons x xs ih =>
    rw [List.foldl_cons]
    exact ih _ (Nat.mod_lt _ (by decide))

lemma depositSumW_lt (l : List BasicOutput) : depositSumW l < U64MOD := by
  simpa [depositSumW] using foldl_addmod_lt l 0 (by decide)

/-- `uint64` subtraction without wrap-around. -/
lemma u64sub_of_le (a b : Nat) (hba : b ≤ a) (haM : a < U64MOD) : u64sub a b = a - b := by
  rw [u64sub, Nat.mod_eq_of_lt (lt_of_le_of_lt hba haM)]
  rw [show U64MOD = 18446744073709551616 from rfl] at haM ⊢
  omega

/-- `uint64` subtraction when it wraps around. -/
lemma u64sub_of_lt (a b : Nat) (hab : a < b) (hbM : b < U64MOD) :
    u64sub a b = U64MOD - b + a := by
  rw [u64sub, Nat.mod_eq_of_lt hbM]
  rw [show U64MOD = 18446744073709551616 from rfl] at hbM ⊢
  omega

/-- Inversion of a successful `buildTransaction`: the deposit validation
passed and the payload is the assembled record. -/
lemma buildTransaction_ok (p : ProtocolParameters) (ids : List (List Nat))
    (outs : List BasicOutputData) (tx : Transaction)
    (h : buildTransaction p ids outs = .ok tx) :
    outputsDepositValidation p 0 outs = none
    ∧ tx = { networkName := p.networkName, inputs := ids, outputs := outs.map Output.basic } := by
  simp only [buildTransaction] at h
  split_ifs at h with h1 h2 h3 h4 h5
  split at h
  · exact absurd h (by simp)
  · rename_i hval
    injection h with h'
    exact ⟨hval, h'.symm⟩

/-- Inversion of one step of the deposit validation. -/
lemma outputsDepositValidation_cons_none (p : ProtocolParameters) (sum : Nat)
    (b : BasicOutputData) (rest : List BasicOutputData)
    (h : outputsDepositValidation p sum (b :: rest) = none) :
    b.amount ≠ 0 ∧ b.amount ≤ p.tokenSupply ∧ sum + b.amount ≤ p.tokenSupply
    ∧ p.rentStructure.minRent b ≤ b.amount
    ∧ outputsDepositValidation p (sum + b.amount) rest = none := by
  simp only [outputsDepositValidation] at h
  split_ifs at h with g1 g2 g3 g4
  exact ⟨g1, by omega, by omega, by omega, h⟩

/-- Shape of every transaction `prepTxPayload` successfully assembles (for
a token supply below `2 ^ 63`, as the protocol's is): the `uint64` input
total covers the notarization output's minimum deposit — the builder's
validating serialize rejects a wrapped remainder, which would exceed the
token supply — and the outputs are the notarization output followed by a
remainder output for the positive difference if there is one. -/
lemma prepTxPayload_ok_shape (p : ProtocolParameters) (inputs : List BasicOutput)
    (address : Ed25519Address) (hash : List Nat) (tx : Transaction)
    (hsupply : 2 * p.tokenSupply < U64MOD)
    (hok : prepTxPayload p inputs address hash = .ok tx) :
    p.rentStructure.minRent (notarizationDraft address hash) ≤ depositSumW inputs
    ∧ tx.outputs =
        Output.basic { notarizationDraft address hash with
            amount := p.rentStructure.minRent (notarizationDraft address hash) } ::
          (if p.rentStructure.minRent (notarizationDraft address hash) < depositSumW inputs
           then [Output.basic
              { amount :=
                  depositSumW inputs - p.rentStructure.minRent (notarizationDraft address hash)
              , nativeTokens := []
              , conditions := [.addressUnlock address]
              , features := [] }]
           else []) := by
  have hWM : depositSumW inputs < U64MOD := depositSumW_lt inputs
  simp only [prepTxPayload] at hok
  cases hb : buildTransaction p (inputs.map BasicOutput.outputID)
      (assembledOutputs p inputs address hash) with
  | error e => rw [hb] at hok; simp at hok
  | ok txP =>
    rw [hb] at hok
    simp only [Except.ok.injEq] at hok
    subst hok
    obtain ⟨hval, htx⟩ := buildTransaction_ok p _ _ _ hb
    subst htx
    simp only [assembledOutputs] at hval
    obtain ⟨-, hcsup, -, -, hval2⟩ := outputsDepositValidation_cons_none p 0 _ _ hval
    have hcsup' : p.rentStructure.minRent (notarizationDraft address hash) ≤ p.tokenSupply :=
      hcsup
    have hcM : p.rentStructure.minRent (notarizationDraft address hash) < U64MOD := by omega
    rcases Nat.lt_trichotomy (p.rentStructure.minRent (notarizationDraft address hash))
      (depositSumW inputs) with hlt | heqc | hgt
    · refine ⟨le_of_lt hlt, ?_⟩
      rw [if_pos hlt]
      simp only [assembledOutputs]
      rw [u64sub_of_le _ _ (le_of_lt hlt) hWM,
        if_pos (show 0 < depositSumW inputs -
          p.rentStructure.minRent (notarizationDraft address hash) by omega)]
      rfl
    · refine ⟨le_of_eq heqc, ?_⟩
      rw [if_neg (show ¬ p.rentStructure.minRent (notarizationDraft address hash) <
        depositSumW inputs by omega)]
      simp only [assembledOutputs]
      rw [show u64sub (depositSumW inputs)
            (p.rentStructure.minRent (notarizationDraft address hash)) = 0 from by
          rw [u64sub_of_le _ _ (le_of_eq heqc) hWM]; omega,
        if_neg (lt_irrefl 0)]
      rfl
    · exfalso
      rw [u64sub_of_lt _ _ hgt hcM,
        if_pos (show 0 < U64MOD - p.rentStructure.minRent (notarizationDraft address hash) +
          depositSumW inputs by omega)] at hval2
      obtain ⟨-, hrsup, -, -, -⟩ := outputsDepositValidation_cons_none p _ _ _ hval2
      have hrsup' : U64MOD - p.rentStructure.minRent (notarizationDraft address hash) +
          depositSumW inputs ≤ p.tokenSupply := hrsup
      omega

/-- A filtered input of deposit 1000, below the minimum deposit 218500 of
the notarization output under the mock protocol parameters. -/
def underfundedInput : BasicOutput :=
  ⟨List.replicate 34 2, ⟨1000, [], [.addressUnlock zeroAddr], []⟩⟩

/-- Claim C2: for every input set whose total deposit is strictly below
the notarization output's computed minimum deposit (under a token supply
below `2 ^ 63`, as the protocol's is), `prepTxPayload` fails rather than
returning a transaction: the `uint64` difference wraps around to a
remainder above the token supply, which the builder's validating serialize
rejects. -/
theorem C2_underfunded_assembly_fails (p : ProtocolParameters) (inputs : List BasicOutput)
    (address : Ed25519Address) (hash : List Nat)
    (hsupply : 2 * p.tokenSupply < U64MOD)
    (hunder : inputDepositSum inputs <
      p.rentStructure.minRent (notarizationDraft address hash)) :
    assemblyFailed (prepTxPayload p inputs address hash) = true := by
  cases hres : prepTxPayload p inputs address hash with
  | error e => rfl
  | ok tx =>
    exfalso
    obtain ⟨hfund, _⟩ := prepTxPayload_ok_shape p inputs address hash tx hsupply hres
    have hle := depositSumW_le inputs
    omega

/-- Witness for C2: on the 1000-token input the wrapped remainder
`2 ^ 64 - 217500` exceeds the token supply and assembly returns the
builder's validation error. -/
theorem C2_underfunded_assembly_fails_witness :
    prepTxPayload mockProtoParas [underfundedInput] zeroAddr abcdHash =
      .error "failed to build transaction payload: output deposit exceeds total supply"
    ∧ assemblyFailed (prepTxPayload mockProtoParas [underfundedInput] zeroAddr abcdHash) = true :=
  ⟨by decide,
   C2_underfunded_assembly_fails mockProtoParas [underfundedInput] zeroAddr abcdHash
     (by decide) (by decide)⟩

/-- The feature scan succeeds exactly when some metadata feature carries
the claimed hash's bytes. -/
lemma findMatchingMetadata_iff (fs : List Feature) (hash : List Nat) :
    findMatchingMetadata fs hash = true ↔ Feature.metadata hash ∈ fs := by
  induction fs with
  | nil => simp [findMatchingMetadata]
  | cons f rest ih =>
    cases f with
    | metadata d =>
      by_cases hd : d = hash
      · subst hd; simp [findMatchingMetadata]
      · simp [findMatchingMetadata, hd, ih, Ne.symm hd]
    | sender a => simp [findMatchingMetadata, ih]
    | tag t => simp [findMatchingMetadata, ih]

/-- Claim C4: whenever the identifier parses and resolves to a basic
output, the verifier answers a positive match exactly when some metadata
feature of the output carries bytes equal to the claimed hash's UTF-8
bytes (matching any one of several metadata features suffices), and a
negative match in every other case. -/
theorem C4_verify_match_iff (outputByID : List Nat → Option Output) (hash : List Nat)
    (outputIDHex : String) (oid : List Nat) (b : BasicOutputData)
    (hparse : outputIDFromHex outputIDHex = some oid)
    (hfound : outputByID oid = some (.basic b)) :
    (verifyNotarization outputByID hash outputIDHex = .json 200 true ↔
      Feature.metadata hash ∈ b.features)
    ∧ (verifyNotarization outputByID hash outputIDHex = .json 200 false ↔
      Feature.metadata hash ∉ b.features) := by
  have hv : verifyNotarization outputByID hash outputIDHex =
      .json 200 (findMatchingMetadata b.features hash) := by
    simp [verifyNotarization, hparse, hfound]
  rw [hv]
  constructor
  · simp [findMatchingMetadata_iff]
  · simp [← findMatchingMetadata_iff]

/-- The 34-byte output id `0x040506…00`. -/
def verifyOID : List Nat := 4 :: 5 :: 6 :: List.replicate 31 0

/-- The hex rendering of `verifyOID` with the `0x` marker. -/
def verifyHex : String :=
  "0x0405060000000000000000000000000000000000000000000000000000000000000000"

/-- A notarization output whose metadata feature holds `"abcd1234"`. -/
def matchedOutput : BasicOutputData :=
  ⟨218500, [], [.addressUnlock zeroAddr], [.metadata abcdHash]⟩

/-- A node view resolving exactly `verifyOID` to `matchedOutput`. -/
def nodeLookup : List Nat → Option Output :=
  fun oid => if oid = verifyOID then some (.basic matchedOutput) else none

/-- Witness for C4 at a concrete resolvable output. -/
theorem C4_verify_match_iff_witness :
    (verifyNotarization nodeLookup abcdHash verifyHex = .json 200 true ↔
      Feature.metadata abcdHash ∈ matchedOutput.features)
    ∧ (verifyNotarization nodeLookup abcdHash verifyHex = .json 200 false ↔
      Feature.metadata abcdHash ∉ matchedOutput.features) :=
  C4_verify_match_iff nodeLookup abcdHash verifyHex verifyOID matchedOutput
    (by decide) (by decide)

/-- Claim C5: a well-formed identifier that does not resolve to an output
(not found or node error) yields the successful negative verdict, never an
error. -/
theorem C5_verify_not_found (outputByID : List Nat → Option Output) (hash : List Nat)
    (outputIDHex : String) (oid : List Nat)
    (hparse : outputIDFromHex outputIDHex = some oid)
    (hmiss : outputByID oid = none) :
    verifyNotarization outputByID hash outputIDHex = .json 200 false := by
  simp [verifyNotarization, hparse, hmiss]

/-- A node view resolving nothing. -/
def emptyLookup : List Nat → Option Output := fun _ => none

/-- Witness for C5 at a concrete unresolvable identifier. -/
theorem C5_verify_not_found_witness :
    verifyNotarization emptyLookup abcdHash verifyHex = .json 200 false :=
  C5_verify_not_found emptyLookup abcdHash verifyHex verifyOID (by decide) rfl

/-- Claim C6: the verification handler returns an HTTP error exactly when
the identifier fails to parse or the resolved output is not of the basic
kind; every error carries status 500, and every non-error outcome is a 200
response with a match verdict. -/
theorem C6_verify_error_iff (outputByID : List Nat → Option Output) (hash : List Nat)
    (outputIDHex : String) :
    ((verifyNotarization outputByID hash outputIDHex).isHttpError = true ↔
      (outputIDFromHex outputIDHex = none ∨
        ∃ oid o, outputIDFromHex outputIDHex = some oid ∧ outputByID oid = some o ∧
          o.isBasic = false))
    ∧ (∀ status msg, verifyNotarization outputByID hash outputIDHex = .httpError status msg →
        status = 500)
    ∧ ((verifyNotarization outputByID hash outputIDHex).isHttpError = false →
        ∃ verdict, verifyNotarization outputByID hash outputIDHex = .json 200 verdict) := by
  cases hparse : outputIDFromHex outputIDHex with
  | none => simp [verifyNotarization, hparse, VerifyResult.isHttpError]
  | some oid =>
    cases hlook : outputByID oid with
    | none => simp [verifyNotarization, hparse, hlook, VerifyResult.isHttpError]
    | some o =>
      cases o <;>
        simp [verifyNotarization, hparse, hlook, VerifyResult.isHttpError, Output.isBasic]

/-- Witness for C6 at a concrete malformed identifier. -/
theorem C6_verify_error_iff_witness :
    ((verifyNotarization emptyLookup abcdHash "zz").isHttpError = true ↔
      (outputIDFromHex "zz" = none ∨
        ∃ oid o, outputIDFromHex "zz" = some oid ∧ emptyLookup oid = some o ∧
          o.isBasic = false))
    ∧ (∀ status msg, verifyNotarization emptyLookup abcdHash "zz" = .httpError status msg →
        status = 500)
    ∧ ((verifyNotarization emptyLookup abcdHash "zz").isHttpError = false →
        ∃ verdict, verifyNotarization emptyLookup abcdHash "zz" = .json 200 verdict) :=
  C6_verify_error_iff emptyLookup abcdHash "zz"

/-- A result-stream page holding one item whose hex output id has no `0x`
marker and therefore fails `HexOutputIDs.OutputIDs`. -/
def badIdPage : IndexerPage := .items [("nohex", .basic ⟨5, [], [], []⟩)]

/-- Claim C7 (code-bug evaluation): a mid-stream failure while resolving a
per-item identifier does not abort the fetch with an explicit error — the
code only logs the parse error and then indexes the nil id slice, a Go
runtime panic. -/
theorem C7_item_parse_panics :
    fetchOutputsByAddress (.ok ()) (.ok ([badIdPage], none)) =
      .runtimePanic "runtime error: index out of range" := rfl

/-- Closed form of the notarization output's minimum deposit: affine in the
metadata length. -/
lemma minRent_draft_closed (r : RentStructure) (address : Ed25519Address) (hash : List Nat) :
    r.minRent (notarizationDraft address hash) =
      r.vByteCost * (r.vbFactorKey * 34 + r.vbFactorData * (89 + hash.length)) := by
  simp only [RentStructure.minRent, BasicOutputData.vbytes, notarizationDraft,
    outputOffsetVBytes, nativeTokensVBytes, conditionsVBytes, featuresVBytes,
    UnlockCondition.vbytes, Feature.vbytes, List.map_cons, List.map_nil,
    List.sum_cons, List.sum_nil]
  ring

/-- Claim C9: the minimum-deposit computation for the notarization output
(a pure function of the output shape and the rent parameters) is monotonic
in the metadata length: under identical protocol parameters a longer hash
payload requires a deposit at least that of a shorter one. -/
theorem C9_minRent_monotone (r : RentStructure) (address : Ed25519Address)
    (hash1 hash2 : List Nat) (hlen : hash1.length ≤ hash2.length) :
    r.minRent (notarizationDraft address hash1) ≤ r.minRent (notarizationDraft address hash2) := by
  rw [minRent_draft_closed, minRent_draft_closed]
  gcongr


/-- The hash bytes of `"abcd12345678"`, four bytes longer than `abcdHash`. -/
def longerHash : List Nat := abcdHash ++ [53, 54, 55, 56]

/-- Witness for C9 under the mock rent parameters: deposits 218500 and
220500 for hash payloads of 8 and 12 bytes. -/
theorem C9_minRent_monotone_witness :
    mockRent.minRent (notarizationDraft zeroAddr abcdHash) = 218500
    ∧ mockRent.minRent (notarizationDraft zeroAddr longerHash) = 220500
    ∧ mockRent.minRent (notarizationDraft zeroAddr abcdHash) ≤
        mockRent.minRent (notarizationDraft zeroAddr longerHash) :=
  ⟨by decide, by decide, C9_minRent_monotone mockRent zeroAddr abcdHash longerHash (by decide)⟩

/-- Claim C10: `prepWallet` ignores the supplied protocol parameters (its
result is the same under any two parameter values), and every wallet it
returns has a bech32 address beginning with the hard-coded `tst1`. -/
theorem C10_prepWallet_tst (deriveAddress : List String → Option Ed25519Address)
    (p p' : ProtocolParameters) (mnemonic : List String) :
    prepWallet deriveAddress p mnemonic = prepWallet deriveAddress p' mnemonic
    ∧ ∀ w, prepWallet deriveAddress p mnemonic = some w →
        w.bech32Address.take 4 = ['t', 's', 't', '1'] := by
  refine ⟨rfl, ?_⟩
  intro w hw
  cases hd : deriveAddress mnemonic with
  | none => simp [prepWallet, hd] at hw
  | some address =>
    simp only [prepWallet, hd, Option.some_inj] at hw
    subst hw
    rfl

/-- Modelled from the spec: the HD-wallet collaborator (`pkg/hdwallet`, not
among the sources) is a black box failing on a malformed seed phrase and
otherwise returning a spending address (spec §6); this concrete instance
rejects the empty phrase and derives the all-zero address. -/
def mockDerive : List String → Option Ed25519Address :=
  fun mnemonic => if mnemonic = [] then none else some zeroAddr

/-- Protocol parameters of a different network (bech32 HRP `iota`). -/
def altProtoParas : ProtocolParameters :=
  ⟨2, "mainnet", "iota", mockRent, 2779530283277761⟩

/-- The wallet object `prepWallet` builds from the all-zero address. -/
def mockWallet : WalletObject :=
  ⟨bech32Encode "tst" (0 :: zeroAddr.pubKeyHash), zeroAddr⟩

set_option maxRecDepth 8000 in
/-- Witness for C10: on a concrete mnemonic the returned address starts
with `tst1` even though the supplied parameters carry the HRP `iota`. -/
theorem C10_prepWallet_tst_witness :
    prepWallet mockDerive altProtoParas ["pass"] = some mockWallet
    ∧ mockWallet.bech32Address.take 4 = ['t', 's', 't', '1'] :=
  ⟨by decide,
   (C10_prepWallet_tst mockDerive altProtoParas mockProtoParas ["pass"]).2 mockWallet (by decide)⟩

end Notarizer
